import Mathlib

/-!
Shallow embedding of the core of mcp-smart-proxy: the stdio MCP client
(internal/mcp, `StdioClient`) and the registry/router (internal/proxy,
`SmartProxy`), together with theorems settling the specification claims.

Modelling conventions:
* Go `map[string]T` values are association lists (`List (String × T)`);
  `mapInsert` is cons and `mapFind` scans from the head, so the most recent
  assignment wins, matching Go map assignment extensionally.  One `range`
  loop over a map observes some iteration order, modelled by the list
  order; Go randomizes that order per loop, so two runs over the same map
  are related by quantifying over a permutation of the list (statements
  comparing two rebuilds take the second run's order as an arbitrary
  permuted list).
* The provider processes are modelled by `ProviderWorld`: whether the spawn
  succeeds and the sequence of lines the process writes on stdout.  A line is
  either a parsable JSON object or unparsable (`Line.invalid`).
* `interface\x7b\x7d` values decoded from JSON are `JsonVal`.
* Blocking I/O is modelled by its observable outcome: `bufio.Scanner.Scan`
  returning false (stream exhausted/closed) is a read failure.  The source
  has no deadline mechanism; the `Ctx` argument mirrors the `context.Context`
  parameters, which the source never consults.
* Effects on the operating system (spawn, request write, stream close, kill)
  are recorded in explicit event traces (`CEvent`, tagged as `REvent` at the
  registry level).
-/

/-- Dynamic JSON values, the model of Go `interface\x7b\x7d` results of
`json.Unmarshal` (numbers are abstracted to `Int`; their exact value is never
inspected by the source). -/
inductive JsonVal where
  | null
  | bool (b : Bool)
  | num (n : Int)
  | str (s : String)
  | arr (elems : List JsonVal)
  | obj (fields : List (String × JsonVal))

/-- Lookup in an association-list map: the binding closest to the head wins
(the most recently inserted one, see `mapInsert`). -/
def mapFind {α : Type} : List (String × α) → String → Option α
  | [], _ => none
  | (k', v) :: rest, k => if k' = k then some v else mapFind rest k

/-- Go map assignment `m[k] = v`: the new binding shadows any older one. -/
def mapInsert {α : Type} (m : List (String × α)) (k : String) (v : α) :
    List (String × α) :=
  (k, v) :: m

/-- Go `delete(m, k)`: drop every binding of `k`. -/
def mapRemove {α : Type} : List (String × α) → String → List (String × α)
  | [], _ => []
  | (k', v) :: rest, k =>
    if k' = k then mapRemove rest k else (k', v) :: mapRemove rest k

/-- The values of an association-list map, one per live (unshadowed) key;
`seen` accumulates the keys already produced. -/
def mapValuesAux {α : Type} (seen : List String) :
    List (String × α) → List α
  | [] => []
  | (k, v) :: rest =>
    if k ∈ seen then mapValuesAux seen rest
    else v :: mapValuesAux (k :: seen) rest

/-- One line written by a provider process on stdout: either a JSON object
(decoded to its field map) or text that fails `json.Unmarshal`. -/
inductive Line where
  | invalid
  | json (fields : List (String × JsonVal))

/-- The environment a provider process presents to the client: whether the
spawn (`cmd.Start` and the pipe setup) succeeds, and the sequence of stdout
lines the process will produce. -/
structure ProviderWorld where
  spawnOk : Bool
  output : List Line

/-- Model of the `context.Context` arguments threaded through the source: a
caller-supplied deadline.  The source never consults it. -/
structure Ctx where
  deadline : Option Nat

/-- Error values, one constructor per distinct error production of the
source (plus `timeoutErr`, the spec taxonomy's TimeoutError, used to state
that the source never produces it). -/
inductive Err where
  /-- `cmd.Start` / pipe creation failed in `NewStdioClient`. -/
  | spawnFail
  /-- `c.stdin.Write` failed in `sendRequest`. -/
  | writeFail
  /-- `failed to read response` (`readResponse`, `Scan` returned false). -/
  | readFail
  /-- `json.Unmarshal` failed on the response line (`readResponse`). -/
  | parseFail
  /-- `invalid response format` (`result` absent or not an object). -/
  | invalidFormat
  /-- `no tools in response` (`ListTools`: `tools` absent or not a list). -/
  | noTools
  /-- `tool error: %v` — the response carried an `error` field (`CallTool`). -/
  | toolError (payload : JsonVal)
  /-- `tool %s not found` (`UseTool`). -/
  | notFound (tool : String)
  /-- `client for server %s not available` (`UseTool`). -/
  | clientUnavailable (server : String)
  /-- `failed to execute tool %s: %w` (`UseTool` wrapping a client error). -/
  | execWrap (tool : String) (e : Err)
  /-- TimeoutError from the spec's error taxonomy; the source contains no
  construction of it (see the C1 theorem). -/
  | timeoutErr

/-- Observable client-level effects on the provider process. -/
inductive CEvent where
  | spawned
  | wrote (method : String)
  | closedStreams
  | killed
  deriving DecidableEq, Repr

/-- The state of one `StdioClient`: liveness of the process, the two pipe
halves, and the stdout lines not yet consumed by the `bufio.Scanner`. -/
structure StdioClient where
  procAlive : Bool
  stdinOpen : Bool
  stdoutOpen : Bool
  pending : List Line

/-- `StdioClient.sendRequest` (proxy.go): marshal the request and write one
line to the child's stdin.  Marshalling a literal map cannot fail; the write
fails iff stdin is closed.  Only the request's `method` is recorded (the
body is otherwise uninspected by any behaviour we verify). -/
def sendRequest (c : StdioClient) (method : String) :
    Except Err Unit × List CEvent :=
  if c.stdinOpen then (Except.ok (), [CEvent.wrote method])
  else (Except.error Err.writeFail, [])

/-- `StdioClient.readResponse` (proxy.go): `Scan` one line — failing if the
stream is closed or exhausted — then `json.Unmarshal` it. -/
def readResponse (c : StdioClient) :
    Except Err (List (String × JsonVal)) × StdioClient :=
  if c.stdoutOpen then
    match c.pending with
    | [] => (Except.error Err.readFail, c)
    | Line.invalid :: rest =>
      (Except.error Err.parseFail, { c with pending := rest })
    | Line.json fields :: rest =>
      (Except.ok fields, { c with pending := rest })
  else (Except.error Err.readFail, c)

/-- `StdioClient.Close` (proxy.go): close stdin, close stdout, then
`Process.Kill`. -/
def StdioClient.Close (c : StdioClient) : StdioClient × List CEvent :=
  ({ c with stdinOpen := false, stdoutOpen := false, procAlive := false },
   [CEvent.closedStreams, CEvent.killed])

/-- `StdioClient.initialize` (proxy.go): send the handshake request and read
and discard exactly one response line. -/
def handshake (c : StdioClient) :
    Except Err Unit × StdioClient × List CEvent :=
  match sendRequest c "initialize" with
  | (Except.error e, evs) => (Except.error e, c, evs)
  | (Except.ok _, evs) =>
    match readResponse c with
    | (Except.error e, c') => (Except.error e, c', evs)
    | (Except.ok _, c') => (Except.ok (), c', evs)

/-- `mcp.NewStdioClient` (proxy.go): spawn the process with stdin/stdout
pipes, then run the handshake; on handshake failure `Close` the client (which
kills the process) before returning the error.  (`command`, `args`, `env`
configure the spawn; the environment actually passed to the child is
modelled separately by `childEnv`, see below.) -/
def NewStdioClient (command : String) (args : List String)
    (env : List (String × String)) (w : ProviderWorld) :
    Except Err StdioClient × List CEvent :=
  if w.spawnOk then
    let c : StdioClient :=
      { procAlive := true, stdinOpen := true, stdoutOpen := true,
        pending := w.output }
    match handshake c with
    | (Except.error e, c', evs) =>
      let (_c'', evs') := c'.Close
      (Except.error e, CEvent.spawned :: (evs ++ evs'))
    | (Except.ok _, c', evs) =>
      (Except.ok c', CEvent.spawned :: evs)
  else (Except.error Err.spawnFail, [])

/-- `mcp.getString` (proxy.go): `m[key].(string)`, or `""`. -/
def getString (m : List (String × JsonVal)) (key : String) : String :=
  match mapFind m key with
  | some (JsonVal.str s) => s
  | _ => ""

/-- `types.Tool`. -/
structure Tool where
  name : String
  description : String
  inputSchema : JsonVal
  serverName : String

/-- The tool-collection loop of `StdioClient.ListTools`: non-object entries
are skipped; missing `inputSchema` is Go `nil`, i.e. `JsonVal.null`; the
`ServerName` zero value is `""`. -/
def parseTools (toolsData : List JsonVal) : List Tool :=
  toolsData.filterMap (fun td =>
    match td with
    | JsonVal.obj m =>
      some { name := getString m "name",
             description := getString m "description",
             inputSchema := (mapFind m "inputSchema").getD JsonVal.null,
             serverName := "" }
    | _ => none)

/-- `StdioClient.ListTools` (proxy.go): send `tools/list`, read one response,
require `result` to be an object and `result.tools` a list, and collect the
tool descriptors. -/
def StdioClient.ListTools (c : StdioClient) (ctx : Ctx) :
    Except Err (List Tool) × StdioClient × List CEvent :=
  match sendRequest c "tools/list" with
  | (Except.error e, evs) => (Except.error e, c, evs)
  | (Except.ok _, evs) =>
    match readResponse c with
    | (Except.error e, c') => (Except.error e, c', evs)
    | (Except.ok response, c') =>
      match mapFind response "result" with
      | some (JsonVal.obj result) =>
        match mapFind result "tools" with
        | some (JsonVal.arr toolsData) =>
          (Except.ok (parseTools toolsData), c', evs)
        | _ => (Except.error Err.noTools, c', evs)
      | _ => (Except.error Err.invalidFormat, c', evs)

/-- `StdioClient.CallTool` (proxy.go): send `tools/call`, read one response;
if it carries an `error` field fail with the tool error wrapping that
payload, otherwise require `result` to be an object and return it.  The
`ctx` and `arguments` parameters are accepted exactly as in the source,
which never consults `ctx` and only serializes `arguments`. -/
def StdioClient.CallTool (c : StdioClient) (ctx : Ctx) (toolName : String)
    (arguments : List (String × JsonVal)) :
    Except Err (List (String × JsonVal)) × StdioClient × List CEvent :=
  match sendRequest c "tools/call" with
  | (Except.error e, evs) => (Except.error e, c, evs)
  | (Except.ok _, evs) =>
    match readResponse c with
    | (Except.error e, c') => (Except.error e, c', evs)
    | (Except.ok response, c') =>
      match mapFind response "error" with
      | some errorData => (Except.error (Err.toolError errorData), c', evs)
      | none =>
        match mapFind response "result" with
        | some (JsonVal.obj result) => (Except.ok result, c', evs)
        | _ => (Except.error Err.invalidFormat, c', evs)

/-- The `cmd.Env` slice after the override loop of `NewStdioClient`
(proxy.go lines 217-222): `cmd.Env` starts out `nil` and each override is
appended as `K=V`, so it stays `nil` (`none`) exactly when the override map
is empty. -/
def cmdEnvLoop (env : List (String × String)) : Option (List String) :=
  env.foldl
    (fun cmdEnv kv => some ((cmdEnv.getD []) ++ [kv.1 ++ "=" ++ kv.2]))
    none

/-- The environment the spawned child actually receives, per the os/exec
contract: a `nil` `cmd.Env` means "inherit the parent environment", a
non-`nil` one is used verbatim as the child's entire environment. -/
def childEnv (parentEnv : List String) (env : List (String × String)) :
    List String :=
  (cmdEnvLoop env).getD parentEnv

/-- `types.MCPServer` (configuration descriptor for one provider). -/
structure MCPServer where
  command : String
  args : List String
  env : List (String × String)
  deriving DecidableEq, Repr

/-- `types.ToolCache`: tool name → descriptor, tool name → owning provider
name, and the last-refresh timestamp. -/
structure ToolCache where
  tools : List (String × Tool)
  lastSync : Nat
  serverMap : List (String × String)

/-- `proxy.SmartProxy`: the configuration (`MCPServers`, in iteration
order), the catalog, and the session map.  The LLM provider and lock are
out of scope of the verified claims (ranking is an external collaborator;
the lock discipline is modelled by this embedding being sequential). -/
structure SmartProxy where
  config : List (String × MCPServer)
  toolCache : ToolCache
  clients : List (String × StdioClient)

/-- `proxy.New`: a proxy over the parsed configuration with an empty catalog
and no sessions. -/
def New (config : List (String × MCPServer)) : SmartProxy :=
  { config := config,
    toolCache := { tools := [], lastSync := 0, serverMap := [] },
    clients := [] }

/-- Registry-level events: a client-level event attributed to the named
provider. -/
inductive REvent where
  | client (server : String) (ev : CEvent)
  deriving DecidableEq, Repr

/-- Attribute a batch of client events to a provider. -/
def tagEvs (server : String) (evs : List CEvent) : List REvent :=
  evs.map (REvent.client server)

/-- The tool-caching loop of `discoverAllTools` (proxy.go lines 94-98):
stamp each tool with the owning server's name and store it in both maps. -/
def cacheTools (cache : ToolCache) (serverName : String) (ts : List Tool) :
    ToolCache :=
  ts.foldl
    (fun cache tool =>
      let tool' := { tool with serverName := serverName }
      { cache with
          tools := mapInsert cache.tools tool'.name tool',
          serverMap := mapInsert cache.serverMap tool'.name serverName })
    cache

/-- One iteration of the `discoverAllTools` loop (proxy.go lines 74-101):
connect; on failure skip the provider.  Store the client, list its tools;
on failure close and remove the client and skip.  On success cache the
tools (the stored client is a pointer in Go, so the post-`ListTools` state
is re-stored). -/
def discoverStep (w : String → ProviderWorld) (ctx : Ctx)
    (acc : SmartProxy × List REvent) (entry : String × MCPServer) :
    SmartProxy × List REvent :=
  let (p, trace) := acc
  let serverName := entry.1
  let serverConfig := entry.2
  match NewStdioClient serverConfig.command serverConfig.args
      serverConfig.env (w serverName) with
  | (Except.error _, evs) => (p, trace ++ tagEvs serverName evs)
  | (Except.ok client, evs) =>
    let p1 := { p with clients := mapInsert p.clients serverName client }
    match client.ListTools ctx with
    | (Except.error _, client', evs2) =>
      let (_c'', evs3) := client'.Close
      ({ p1 with clients := mapRemove p1.clients serverName },
       trace ++ tagEvs serverName (evs ++ evs2 ++ evs3))
    | (Except.ok tools, client', evs2) =>
      ({ p1 with
           clients := mapInsert p1.clients serverName client',
           toolCache := cacheTools p1.toolCache serverName tools },
       trace ++ tagEvs serverName (evs ++ evs2))

/-- `SmartProxy.discoverAllTools` (proxy.go): run the connect-and-list loop
over every configured server, then set `LastSync` to the current time
(`now`).  The source always returns a nil error. -/
def SmartProxy.discoverAllTools (p : SmartProxy) (w : String → ProviderWorld)
    (ctx : Ctx) (now : Nat) : SmartProxy × List REvent :=
  let (p', trace) := p.config.foldl (discoverStep w ctx) (p, [])
  ({ p' with toolCache := { p'.toolCache with lastSync := now } }, trace)

/-- `SmartProxy.Initialize`: initial discovery on a fresh proxy;
`discoverAllTools` cannot fail, so this always succeeds. -/
def SmartProxy.Initialize (p : SmartProxy) (w : String → ProviderWorld)
    (ctx : Ctx) (now : Nat) : Except Err Unit × SmartProxy × List REvent :=
  let (p', trace) := p.discoverAllTools w ctx now
  (Except.ok (), p', trace)

/-- `SmartProxy.ListTools` (proxy.go): snapshot of all cached tools (one per
live key; Go map iteration order is irrelevant to every property proved
below, which only uses membership).  The source also returns an always-nil
error, omitted here. -/
def SmartProxy.ListTools (p : SmartProxy) : List Tool :=
  mapValuesAux [] p.toolCache.tools

/-- `SmartProxy.UseTool` (proxy.go): look up the owning server (else
`tool not found`), look up its client (else `client not available`), and
delegate to `CallTool`, wrapping any error.  The updated client state is
re-stored (pointer mutation in Go). -/
def SmartProxy.UseTool (p : SmartProxy) (ctx : Ctx) (toolName : String)
    (arguments : List (String × JsonVal)) :
    Except Err (List (String × JsonVal)) × SmartProxy × List REvent :=
  match mapFind p.toolCache.serverMap toolName with
  | none => (Except.error (Err.notFound toolName), p, [])
  | some serverName =>
    match mapFind p.clients serverName with
    | none => (Except.error (Err.clientUnavailable serverName), p, [])
    | some client =>
      match client.CallTool ctx toolName arguments with
      | (Except.error e, client', evs) =>
        (Except.error (Err.execWrap toolName e),
         { p with clients := mapInsert p.clients serverName client' },
         tagEvs serverName evs)
      | (Except.ok result, client', evs) =>
        (Except.ok result,
         { p with clients := mapInsert p.clients serverName client' },
         tagEvs serverName evs)

/-- The close events `RefreshTools` emits for the previously open sessions. -/
def closeEvents (clients : List (String × StdioClient)) : List REvent :=
  (clients.map (fun kv => tagEvs kv.1 (kv.2.Close).2)).flatten

/-- `SmartProxy.RefreshTools` (proxy.go): close every existing client,
replace the session map and both catalog maps with empty ones (`LastSync`
is untouched until discovery stamps it), then rediscover. -/
def SmartProxy.RefreshTools (p : SmartProxy) (w : String → ProviderWorld)
    (ctx : Ctx) (now : Nat) : SmartProxy × List REvent :=
  let closeTrace := closeEvents p.clients
  let p1 : SmartProxy :=
    { p with
        clients := [],
        toolCache :=
          { tools := [], lastSync := p.toolCache.lastSync, serverMap := [] } }
  let (p2, dtrace) := p1.discoverAllTools w ctx now
  (p2, closeTrace ++ dtrace)

/-- Derived observation: what one provider contributes to a rebuild —
`none` if `connect` (spawn/handshake) or the capability listing fails,
otherwise the parsed tool list.  Defined by the same case analysis as
`discoverStep`; used to state the claims. -/
def providerListing (cfg : MCPServer) (pw : ProviderWorld) (ctx : Ctx) :
    Option (List Tool) :=
  match NewStdioClient cfg.command cfg.args cfg.env pw with
  | (Except.error _, _) => none
  | (Except.ok client, _) =>
    match client.ListTools ctx with
    | (Except.error _, _, _) => none
    | (Except.ok ts, _, _) => some ts

/-- Catalog effect of one provider, as recomputed from `providerListing`. -/
def stepCache (w : String → ProviderWorld) (ctx : Ctx) (cache : ToolCache)
    (entry : String × MCPServer) : ToolCache :=
  match providerListing entry.2 (w entry.1) ctx with
  | none => cache
  | some ts => cacheTools cache entry.1 ts

/-- The catalog a rebuild pass produces from an initial catalog. -/
def buildCache (w : String → ProviderWorld) (ctx : Ctx)
    (l : List (String × MCPServer)) (init : ToolCache) : ToolCache :=
  l.foldl (stepCache w ctx) init

/-- Session-map effect of one provider. -/
def stepClients (w : String → ProviderWorld) (ctx : Ctx)
    (cs : List (String × StdioClient)) (entry : String × MCPServer) :
    List (String × StdioClient) :=
  match NewStdioClient entry.2.command entry.2.args entry.2.env
      (w entry.1) with
  | (Except.error _, _) => cs
  | (Except.ok client, _) =>
    match client.ListTools ctx with
    | (Except.error _, _, _) => mapRemove (mapInsert cs entry.1 client) entry.1
    | (Except.ok _, client', _) =>
      mapInsert (mapInsert cs entry.1 client) entry.1 client'

/-- The session map a rebuild pass produces from an initial session map. -/
def buildClients (w : String → ProviderWorld) (ctx : Ctx)
    (l : List (String × MCPServer)) (init : List (String × StdioClient)) :
    List (String × StdioClient) :=
  l.foldl (stepClients w ctx) init

/-- The events one provider contributes to a rebuild pass. -/
def stepTrace (w : String → ProviderWorld) (ctx : Ctx)
    (entry : String × MCPServer) : List REvent :=
  match NewStdioClient entry.2.command entry.2.args entry.2.env
      (w entry.1) with
  | (Except.error _, evs) => tagEvs entry.1 evs
  | (Except.ok client, evs) =>
    match client.ListTools ctx with
    | (Except.error _, client', evs2) =>
      tagEvs entry.1 (evs ++ evs2 ++ (client'.Close).2)
    | (Except.ok _, _, evs2) => tagEvs entry.1 (evs ++ evs2)

/-- The full event trace of a rebuild pass. -/
def discoverTrace (w : String → ProviderWorld) (ctx : Ctx)
    (l : List (String × MCPServer)) : List REvent :=
  (l.map (stepTrace w ctx)).flatten

/-- The descriptor at key `n` was supplied by the capability listing of a
provider configured in `l`: some provider `s` succeeded, its listing
contains a tool `t0` named `n`, and the stored descriptor is `t0` stamped
with `s` as owner. -/
def FromProvider (w : String → ProviderWorld) (ctx : Ctx)
    (l : List (String × MCPServer)) (n : String) (t : Tool) : Prop :=
  ∃ s cfg ts t0, (s, cfg) ∈ l ∧ providerListing cfg (w s) ctx = some ts ∧
    t0 ∈ ts ∧ n = t0.name ∧ t = { t0 with serverName := s }

/-- Fixture: configuration descriptor of a provider `A`. -/
def cfgProvA : MCPServer := { command := "provider-a", args := [], env := [] }

/-- Fixture: configuration descriptor of a provider `B`. -/
def cfgProvB : MCPServer := { command := "provider-b", args := [], env := [] }

/-- Fixture: a provider whose handshake response line is unparsable JSON. -/
def wFail : ProviderWorld := { spawnOk := true, output := [Line.invalid] }

/-- Fixture: a provider that answers the handshake and then lists one tool
named `beta`. -/
def wBeta : ProviderWorld :=
  { spawnOk := true,
    output := [Line.json [],
      Line.json [("result", JsonVal.obj [("tools", JsonVal.arr
        [JsonVal.obj [("name", JsonVal.str "beta"),
          ("description", JsonVal.str "a tool")]])])]] }

/-- Fixture: every provider behaves like `wBeta`. -/
def wOnlyBeta : String → ProviderWorld := fun _ => wBeta

/-- Fixture: provider `A` fails its handshake, everyone else lists `beta`. -/
def wAB : String → ProviderWorld := fun n => if n = "A" then wFail else wBeta

/-- Fixture: the descriptor `beta` as parsed from `wBeta`'s listing (owner
field still the zero value). -/
def toolBeta0 : Tool :=
  { name := "beta", description := "a tool", inputSchema := JsonVal.null,
    serverName := "" }

/-- Fixture: the descriptor `beta` as published in the catalog, owned by
provider `B`. -/
def toolBetaB : Tool := { toolBeta0 with serverName := "B" }

/-- Fixture: a session whose next response carries an `error` field and the
one after that a `result` object. -/
def cErrThenOk : StdioClient :=
  { procAlive := true, stdinOpen := true, stdoutOpen := true,
    pending := [Line.json [("error", JsonVal.str "boom")],
      Line.json [("result", JsonVal.obj [])]] }

/-- Fixture: an idle open session. -/
def cIdle : StdioClient :=
  { procAlive := true, stdinOpen := true, stdoutOpen := true, pending := [] }

/-- Fixture: a proxy with one open session and nothing configured. -/
def pWithClient : SmartProxy :=
  { config := [],
    toolCache := { tools := [], lastSync := 0, serverMap := [] },
    clients := [("A", cIdle)] }

/-- Fixture: a provider that answers the handshake and then lists one tool
named `alpha` (used to build a cross-provider name collision). -/
def wAlpha : ProviderWorld :=
  { spawnOk := true,
    output := [Line.json [],
      Line.json [("result", JsonVal.obj [("tools", JsonVal.arr
        [JsonVal.obj [("name", JsonVal.str "alpha"),
          ("description", JsonVal.str "shared")]])])]] }

/-- Fixture: every provider behaves like `wAlpha`, so any two configured
providers collide on the tool name `alpha`. -/
def wBoth : String → ProviderWorld := fun _ => wAlpha

@[simp] lemma mapFind_nil {α : Type} (k : String) :
    mapFind ([] : List (String × α)) k = none := rfl

@[simp] lemma mapFind_cons {α : Type} (k' k : String) (v : α)
    (m : List (String × α)) :
    mapFind ((k', v) :: m) k = if k' = k then some v else mapFind m k := rfl

lemma mapFind_insert_self {α : Type} (m : List (String × α)) (k : String)
    (v : α) : mapFind (mapInsert m k v) k = some v := by
  simp [mapInsert]

lemma mapFind_insert_ne {α : Type} (m : List (String × α)) (k' k : String)
    (v : α) (h : k' ≠ k) : mapFind (mapInsert m k' v) k = mapFind m k := by
  simp [mapInsert, h]

lemma mapFind_remove_ne {α : Type} (m : List (String × α)) (k' k : String)
    (h : k' ≠ k) : mapFind (mapRemove m k') k = mapFind m k := by
  induction m with
  | nil => rfl
  | cons kv rest ih =>
    obtain ⟨a, b⟩ := kv
    by_cases ha : a = k'
    · subst ha
      rw [mapRemove, if_pos rfl, ih, mapFind_cons, if_neg h]
    · rw [mapRemove, if_neg ha, mapFind_cons, mapFind_cons, ih]

lemma mem_mapValuesAux {α : Type} :
    ∀ (m : List (String × α)) (seen : List String) (t : α),
      t ∈ mapValuesAux seen m → ∃ n, n ∉ seen ∧ mapFind m n = some t := by
  intro m
  induction m with
  | nil => intro seen t h; simp [mapValuesAux] at h
  | cons kv rest ih =>
    intro seen t h
    obtain ⟨k, v⟩ := kv
    by_cases hk : k ∈ seen
    · simp only [mapValuesAux, if_pos hk] at h
      obtain ⟨n, hns, hfind⟩ := ih seen t h
      have hkn : k ≠ n := fun he => hns (he ▸ hk)
      exact ⟨n, hns, by simp [hkn, hfind]⟩
    · simp only [mapValuesAux, if_neg hk, List.mem_cons] at h
      rcases h with h | h
      · exact ⟨k, hk, by simp [h]⟩
      · obtain ⟨n, hns, hfind⟩ := ih (k :: seen) t h
        simp only [List.mem_cons, not_or] at hns
        exact ⟨n, hns.2, by simp [Ne.symm hns.1, hfind]⟩

lemma cacheTools_cons (cache : ToolCache) (s : String) (t0 : Tool)
    (ts : List Tool) :
    cacheTools cache s (t0 :: ts) =
      cacheTools
        { cache with
            tools := mapInsert cache.tools t0.name
              { t0 with serverName := s },
            serverMap := mapInsert cache.serverMap t0.name s } s ts := rfl

lemma cacheTools_lastSync (s : String) :
    ∀ (ts : List Tool) (cache : ToolCache),
      (cacheTools cache s ts).lastSync = cache.lastSync := by
  intro ts
  induction ts with
  | nil => intro cache; rfl
  | cons t0 ts ih => intro cache; rw [cacheTools_cons]; exact ih _

lemma cacheTools_tools_congr (s : String) :
    ∀ (ts : List Tool) (c₁ c₂ : ToolCache), c₁.tools = c₂.tools →
      (cacheTools c₁ s ts).tools = (cacheTools c₂ s ts).tools := by
  intro ts
  induction ts with
  | nil => intro c₁ c₂ h; exact h
  | cons t0 ts ih =>
    intro c₁ c₂ h
    rw [cacheTools_cons, cacheTools_cons]
    exact ih _ _ (by simp [h])

lemma cacheTools_serverMap_congr (s : String) :
    ∀ (ts : List Tool) (c₁ c₂ : ToolCache), c₁.serverMap = c₂.serverMap →
      (cacheTools c₁ s ts).serverMap = (cacheTools c₂ s ts).serverMap := by
  intro ts
  induction ts with
  | nil => intro c₁ c₂ h; exact h
  | cons t0 ts ih =>
    intro c₁ c₂ h
    rw [cacheTools_cons, cacheTools_cons]
    exact ih _ _ (by simp [h])

lemma cacheTools_find_tools (s : String) :
    ∀ (ts : List Tool) (cache : ToolCache) (n : String) (t : Tool),
      mapFind (cacheTools cache s ts).tools n = some t →
      (∃ t0 ∈ ts, n = t0.name ∧ t = { t0 with serverName := s }) ∨
        mapFind cache.tools n = some t := by
  intro ts
  induction ts with
  | nil => intro cache n t h; exact Or.inr h
  | cons t0 ts ih =>
    intro cache n t h
    rw [cacheTools_cons] at h
    rcases ih _ n t h with h' | h'
    · obtain ⟨t1, ht1, hn, ht⟩ := h'
      exact Or.inl ⟨t1, List.mem_cons_of_mem _ ht1, hn, ht⟩
    · by_cases hn : t0.name = n
      · rw [← hn, mapFind_insert_self] at h'
        exact Or.inl ⟨t0, List.mem_cons_self _ _, hn.symm,
          (Option.some_inj.mp h').symm⟩
      · rw [mapFind_insert_ne _ _ _ _ hn] at h'
        exact Or.inr h'

lemma cacheTools_find_serverMap (s : String) :
    ∀ (ts : List Tool) (cache : ToolCache) (n : String) (s' : String),
      mapFind (cacheTools cache s ts).serverMap n = some s' →
      (s' = s ∧ ∃ t0 ∈ ts, n = t0.name) ∨
        mapFind cache.serverMap n = some s' := by
  intro ts
  induction ts with
  | nil => intro cache n s' h; exact Or.inr h
  | cons t0 ts ih =>
    intro cache n s' h
    rw [cacheTools_cons] at h
    rcases ih _ n s' h with h' | h'
    · obtain ⟨hs, t1, ht1, hn⟩ := h'
      exact Or.inl ⟨hs, t1, List.mem_cons_of_mem _ ht1, hn⟩
    · by_cases hn : t0.name = n
      · rw [← hn, mapFind_insert_self] at h'
        exact Or.inl ⟨(Option.some_inj.mp h').symm, t0,
          List.mem_cons_self _ _, hn.symm⟩
      · rw [mapFind_insert_ne _ _ _ _ hn] at h'
        exact Or.inr h'

lemma cacheTools_keys (s : String) :
    ∀ (ts : List Tool) (cache : ToolCache),
      (∀ n, (mapFind cache.tools n).isSome ↔
        (mapFind cache.serverMap n).isSome) →
      ∀ n, (mapFind (cacheTools cache s ts).tools n).isSome ↔
        (mapFind (cacheTools cache s ts).serverMap n).isSome := by
  intro ts
  induction ts with
  | nil => intro cache h; exact h
  | cons t0 ts ih =>
    intro cache h n
    rw [cacheTools_cons]
    refine ih _ (fun n' => ?_) n
    by_cases hn : t0.name = n'
    · subst hn; simp [mapFind_insert_self]
    · rw [mapFind_insert_ne _ _ _ _ hn, mapFind_insert_ne _ _ _ _ hn]
      exact h n'

lemma cacheTools_owner (s : String) :
    ∀ (ts : List Tool) (cache : ToolCache),
      (∀ n t, mapFind cache.tools n = some t →
        mapFind cache.serverMap n = some t.serverName) →
      ∀ n t, mapFind (cacheTools cache s ts).tools n = some t →
        mapFind (cacheTools cache s ts).serverMap n = some t.serverName := by
  intro ts
  induction ts with
  | nil => intro cache h; exact h
  | cons t0 ts ih =>
    intro cache h n t
    rw [cacheTools_cons]
    refine ih _ (fun n' t' h' => ?_) n t
    by_cases hn : t0.name = n'
    · subst hn
      rw [mapFind_insert_self] at h'
      rw [mapFind_insert_self, ← Option.some_inj.mp h']
    · rw [mapFind_insert_ne _ _ _ _ hn] at h'
      rw [mapFind_insert_ne _ _ _ _ hn]
      exact h n' t' h'

lemma cacheTools_mono (s : String) :
    ∀ (ts : List Tool) (cache : ToolCache) (n : String),
      (mapFind cache.tools n).isSome →
      (mapFind (cacheTools cache s ts).tools n).isSome := by
  intro ts
  induction ts with
  | nil => intro cache n h; exact h
  | cons t0 ts ih =>
    intro cache n h
    rw [cacheTools_cons]
    refine ih _ n ?_
    by_cases hn : t0.name = n
    · subst hn; simp [mapFind_insert_self]
    · rw [mapFind_insert_ne _ _ _ _ hn]; exact h

lemma cacheTools_present (s : String) :
    ∀ (ts : List Tool) (cache : ToolCache) (t0 : Tool), t0 ∈ ts →
      (mapFind (cacheTools cache s ts).tools t0.name).isSome := by
  intro ts
  induction ts with
  | nil => intro cache t0 h; simp at h
  | cons t1 ts ih =>
    intro cache t0 h
    rcases List.mem_cons.mp h with h | h
    · subst h
      rw [cacheTools_cons]
      exact cacheTools_mono s ts _ t0.name (by simp [mapFind_insert_self])
    · rw [cacheTools_cons]; exact ih _ t0 h

lemma buildCache_cons (w : String → ProviderWorld) (ctx : Ctx)
    (e : String × MCPServer) (l : List (String × MCPServer))
    (init : ToolCache) :
    buildCache w ctx (e :: l) init =
      buildCache w ctx l (stepCache w ctx init e) := rfl

lemma buildClients_cons (w : String → ProviderWorld) (ctx : Ctx)
    (e : String × MCPServer) (l : List (String × MCPServer))
    (init : List (String × StdioClient)) :
    buildClients w ctx (e :: l) init =
      buildClients w ctx l (stepClients w ctx init e) := rfl

lemma discover_foldl (w : String → ProviderWorld) (ctx : Ctx) :
    ∀ (l : List (String × MCPServer)) (p : SmartProxy) (tr : List REvent),
      l.foldl (discoverStep w ctx) (p, tr) =
        ({ config := p.config,
           toolCache := buildCache w ctx l p.toolCache,
           clients := buildClients w ctx l p.clients },
         tr ++ discoverTrace w ctx l) := by
  intro l
  induction l with
  | nil =>
    intro p tr
    simp [buildCache, buildClients, discoverTrace]
  | cons e l ih =>
    intro p tr
    obtain ⟨s, cfg⟩ := e
    rw [List.foldl_cons]
    cases hN : NewStdioClient cfg.command cfg.args cfg.env (w s) with
    | mk res evs =>
      cases res with
      | error err =>
        have hpl : providerListing cfg (w s) ctx = none := by
          simp [providerListing, hN]
        have hstep : discoverStep w ctx (p, tr) (s, cfg) =
            (p, tr ++ tagEvs s evs) := by
          simp [discoverStep, hN]
        rw [hstep, ih]
        simp [buildCache_cons, buildClients_cons, discoverTrace, stepCache,
          stepClients, stepTrace, hpl, hN, List.append_assoc]
      | ok client =>
        cases hL : client.ListTools ctx with
        | mk res2 pair =>
          obtain ⟨client', evs2⟩ := pair
          cases res2 with
          | error err2 =>
            have hpl : providerListing cfg (w s) ctx = none := by
              simp [providerListing, hN, hL]
            have hstep : discoverStep w ctx (p, tr) (s, cfg) =
                ({ p with
                     clients := mapRemove (mapInsert p.clients s client) s },
                 tr ++ tagEvs s (evs ++ evs2 ++ (client'.Close).2)) := by
              simp [discoverStep, hN, hL]
            rw [hstep, ih]
            simp [buildCache_cons, buildClients_cons, discoverTrace,
              stepCache, stepClients, stepTrace, hpl, hN, hL,
              List.append_assoc]
          | ok ts =>
            have hpl : providerListing cfg (w s) ctx = some ts := by
              simp [providerListing, hN, hL]
            have hstep : discoverStep w ctx (p, tr) (s, cfg) =
                ({ p with
                     clients :=
                       mapInsert (mapInsert p.clients s client) s client',
                     toolCache := cacheTools p.toolCache s ts },
                 tr ++ tagEvs s (evs ++ evs2)) := by
              simp [discoverStep, hN, hL]
            rw [hstep, ih]
            simp [buildCache_cons, buildClients_cons, discoverTrace,
              stepCache, stepClients, stepTrace, hpl, hN, hL,
              List.append_assoc]

lemma discoverAllTools_eq (p : SmartProxy) (w : String → ProviderWorld)
    (ctx : Ctx) (now : Nat) :
    p.discoverAllTools w ctx now =
      ({ config := p.config,
         toolCache :=
           { buildCache w ctx p.config p.toolCache with lastSync := now },
         clients := buildClients w ctx p.config p.clients },
       discoverTrace w ctx p.config) := by
  simp only [SmartProxy.discoverAllTools, discover_foldl, List.nil_append]

lemma RefreshTools_eq (p : SmartProxy) (w : String → ProviderWorld)
    (ctx : Ctx) (now : Nat) :
    p.RefreshTools w ctx now =
      ({ config := p.config,
         toolCache :=
           { buildCache w ctx p.config
               { tools := [], lastSync := p.toolCache.lastSync,
                 serverMap := [] }
             with lastSync := now },
         clients := buildClients w ctx p.config [] },
       closeEvents p.clients ++ discoverTrace w ctx p.config) := by
  simp only [SmartProxy.RefreshTools, discoverAllTools_eq]

lemma RefreshTools_config (p : SmartProxy) (w : String → ProviderWorld)
    (ctx : Ctx) (now : Nat) :
    (p.RefreshTools w ctx now).1.config = p.config := by
  rw [RefreshTools_eq]

lemma RefreshTools_tools (p : SmartProxy) (w : String → ProviderWorld)
    (ctx : Ctx) (now : Nat) :
    (p.RefreshTools w ctx now).1.toolCache.tools =
      (buildCache w ctx p.config
        { tools := [], lastSync := p.toolCache.lastSync,
          serverMap := [] }).tools := by
  rw [RefreshTools_eq]

lemma RefreshTools_serverMap (p : SmartProxy) (w : String → ProviderWorld)
    (ctx : Ctx) (now : Nat) :
    (p.RefreshTools w ctx now).1.toolCache.serverMap =
      (buildCache w ctx p.config
        { tools := [], lastSync := p.toolCache.lastSync,
          serverMap := [] }).serverMap := by
  rw [RefreshTools_eq]

lemma discoverAllTools_tools (p : SmartProxy) (w : String → ProviderWorld)
    (ctx : Ctx) (now : Nat) :
    (p.discoverAllTools w ctx now).1.toolCache.tools =
      (buildCache w ctx p.config p.toolCache).tools := by
  rw [discoverAllTools_eq]

lemma discoverAllTools_serverMap (p : SmartProxy)
    (w : String → ProviderWorld) (ctx : Ctx) (now : Nat) :
    (p.discoverAllTools w ctx now).1.toolCache.serverMap =
      (buildCache w ctx p.config p.toolCache).serverMap := by
  rw [discoverAllTools_eq]

lemma buildCache_keys (w : String → ProviderWorld) (ctx : Ctx) :
    ∀ (l : List (String × MCPServer)) (init : ToolCache),
      (∀ n, (mapFind init.tools n).isSome ↔
        (mapFind init.serverMap n).isSome) →
      ∀ n, (mapFind (buildCache w ctx l init).tools n).isSome ↔
        (mapFind (buildCache w ctx l init).serverMap n).isSome := by
  intro l
  induction l with
  | nil => intro init h; exact h
  | cons e l ih =>
    intro init h n
    rw [buildCache_cons]
    refine ih _ ?_ n
    cases hpl : providerListing e.2 (w e.1) ctx with
    | none => simpa [stepCache, hpl] using h
    | some ts =>
      simp only [stepCache, hpl]
      exact cacheTools_keys e.1 ts init h

lemma buildCache_owner_origin (w : String → ProviderWorld) (ctx : Ctx) :
    ∀ (l : List (String × MCPServer)) (init : ToolCache),
      (∀ n t, mapFind init.tools n = some t →
        mapFind init.serverMap n = some t.serverName) →
      ∀ n t, mapFind (buildCache w ctx l init).tools n = some t →
        mapFind (buildCache w ctx l init).serverMap n = some t.serverName ∧
          (mapFind init.tools n = some t ∨ FromProvider w ctx l n t) := by
  intro l
  induction l with
  | nil =>
    intro init h n t hf
    exact ⟨h n t hf, Or.inl hf⟩
  | cons e l ih =>
    intro init h n t hf
    obtain ⟨s, cfg⟩ := e
    rw [buildCache_cons] at hf ⊢
    cases hpl : providerListing cfg (w s) ctx with
    | none =>
      have hid : stepCache w ctx init (s, cfg) = init := by
        simp [stepCache, hpl]
      rw [hid] at hf ⊢
      obtain ⟨hsm, horig⟩ := ih init h n t hf
      refine ⟨hsm, ?_⟩
      rcases horig with h' | h'
      · exact Or.inl h'
      · obtain ⟨s', cfg', ts', t0, hmem, rest⟩ := h'
        exact Or.inr ⟨s', cfg', ts', t0, List.mem_cons_of_mem _ hmem, rest⟩
    | some ts =>
      have hst : stepCache w ctx init (s, cfg) = cacheTools init s ts := by
        simp [stepCache, hpl]
      rw [hst] at hf ⊢
      obtain ⟨hsm, horig⟩ :=
        ih (cacheTools init s ts) (cacheTools_owner s ts init h) n t hf
      refine ⟨hsm, ?_⟩
      rcases horig with h' | h'
      · rcases cacheTools_find_tools s ts init n t h' with h'' | h''
        · obtain ⟨t0, ht0, hn, ht⟩ := h''
          exact Or.inr ⟨s, cfg, ts, t0, List.mem_cons_self _ _, hpl, ht0,
            hn, ht⟩
        · exact Or.inl h''
      · obtain ⟨s', cfg', ts', t0, hmem, rest⟩ := h'
        exact Or.inr ⟨s', cfg', ts', t0, List.mem_cons_of_mem _ hmem, rest⟩

lemma buildCache_server_origin (w : String → ProviderWorld) (ctx : Ctx) :
    ∀ (l : List (String × MCPServer)) (init : ToolCache) (n s' : String),
      mapFind (buildCache w ctx l init).serverMap n = some s' →
      mapFind init.serverMap n = some s' ∨
        ∃ cfg ts, (s', cfg) ∈ l ∧
          providerListing cfg (w s') ctx = some ts ∧
          ∃ t0 ∈ ts, n = t0.name := by
  intro l
  induction l with
  | nil => intro init n s' h; exact Or.inl h
  | cons e l ih =>
    intro init n s' h
    obtain ⟨s, cfg⟩ := e
    rw [buildCache_cons] at h
    cases hpl : providerListing cfg (w s) ctx with
    | none =>
      have hid : stepCache w ctx init (s, cfg) = init := by
        simp [stepCache, hpl]
      rw [hid] at h
      rcases ih init n s' h with h' | h'
      · exact Or.inl h'
      · obtain ⟨cfg', ts', hmem, rest⟩ := h'
        exact Or.inr ⟨cfg', ts', List.mem_cons_of_mem _ hmem, rest⟩
    | some ts =>
      have hst : stepCache w ctx init (s, cfg) = cacheTools init s ts := by
        simp [stepCache, hpl]
      rw [hst] at h
      rcases ih _ n s' h with h' | h'
      · rcases cacheTools_find_serverMap s ts init n s' h' with h'' | h''
        · obtain ⟨hs, t0, ht0, hn⟩ := h''
          subst hs
          exact Or.inr ⟨cfg, ts, List.mem_cons_self _ _, hpl, t0, ht0, hn⟩
        · exact Or.inl h''
      · obtain ⟨cfg', ts', hmem, rest⟩ := h'
        exact Or.inr ⟨cfg', ts', List.mem_cons_of_mem _ hmem, rest⟩

lemma buildCache_mono (w : String → ProviderWorld) (ctx : Ctx) :
    ∀ (l : List (String × MCPServer)) (init : ToolCache) (n : String),
      (mapFind init.tools n).isSome →
      (mapFind (buildCache w ctx l init).tools n).isSome := by
  intro l
  induction l with
  | nil => intro init n h; exact h
  | cons e l ih =>
    intro init n h
    rw [buildCache_cons]
    refine ih _ n ?_
    cases hpl : providerListing e.2 (w e.1) ctx with
    | none => simpa [stepCache, hpl] using h
    | some ts =>
      simp only [stepCache, hpl]
      exact cacheTools_mono e.1 ts init n h

lemma buildCache_present (w : String → ProviderWorld) (ctx : Ctx) :
    ∀ (l : List (String × MCPServer)) (init : ToolCache) (b : String)
      (cfgB : MCPServer) (ts : List Tool) (t0 : Tool),
      (b, cfgB) ∈ l → providerListing cfgB (w b) ctx = some ts → t0 ∈ ts →
      (mapFind (buildCache w ctx l init).tools t0.name).isSome := by
  intro l
  induction l with
  | nil => intro init b cfgB ts t0 hmem; simp at hmem
  | cons e l ih =>
    intro init b cfgB ts t0 hmem hpl ht0
    rw [buildCache_cons]
    rcases List.mem_cons.mp hmem with he | hmem'
    · have : stepCache w ctx init e = cacheTools init b ts := by
        rw [← he]; simp [stepCache, hpl]
      rw [this]
      exact buildCache_mono w ctx l _ t0.name
        (cacheTools_present b ts init t0 ht0)
    · exact ih _ b cfgB ts t0 hmem' hpl ht0

lemma buildCache_key_iff (w : String → ProviderWorld) (ctx : Ctx)
    (l : List (String × MCPServer)) (init : ToolCache)
    (hinit : init.tools = []) (n : String) :
    (mapFind (buildCache w ctx l init).tools n).isSome ↔
      ∃ s cfg ts t0, (s, cfg) ∈ l ∧
        providerListing cfg (w s) ctx = some ts ∧ t0 ∈ ts ∧ n = t0.name := by
  constructor
  · intro h
    obtain ⟨t, ht⟩ := Option.isSome_iff_exists.mp h
    obtain ⟨-, horig⟩ :=
      buildCache_owner_origin w ctx l init
        (fun n' t' h' => by rw [hinit] at h'; simp at h') n t ht
    rcases horig with h' | h'
    · rw [hinit] at h'; simp at h'
    · obtain ⟨s, cfg, ts, t0, hmem, hpl, ht0, hn, -⟩ := h'
      exact ⟨s, cfg, ts, t0, hmem, hpl, ht0, hn⟩
  · rintro ⟨s, cfg, ts, t0, hmem, hpl, ht0, hn⟩
    rw [hn]
    exact buildCache_present w ctx l init s cfg ts t0 hmem hpl ht0

lemma buildCache_congr (w : String → ProviderWorld) (ctx : Ctx) :
    ∀ (l : List (String × MCPServer)) (i₁ i₂ : ToolCache),
      i₁.tools = i₂.tools → i₁.serverMap = i₂.serverMap →
      (buildCache w ctx l i₁).tools = (buildCache w ctx l i₂).tools ∧
        (buildCache w ctx l i₁).serverMap =
          (buildCache w ctx l i₂).serverMap := by
  intro l
  induction l with
  | nil => intro i₁ i₂ h1 h2; exact ⟨h1, h2⟩
  | cons e l ih =>
    intro i₁ i₂ h1 h2
    rw [buildCache_cons, buildCache_cons]
    cases hpl : providerListing e.2 (w e.1) ctx with
    | none =>
      simp only [stepCache, hpl]
      exact ih i₁ i₂ h1 h2
    | some ts =>
      simp only [stepCache, hpl]
      exact ih _ _ (cacheTools_tools_congr e.1 ts i₁ i₂ h1)
        (cacheTools_serverMap_congr e.1 ts i₁ i₂ h2)

lemma providerListing_some (cfg : MCPServer) (pw : ProviderWorld) (ctx : Ctx)
    (ts : List Tool) (h : providerListing cfg pw ctx = some ts) :
    ∃ client evs client' evs2,
      NewStdioClient cfg.command cfg.args cfg.env pw =
        (Except.ok client, evs) ∧
      client.ListTools ctx = (Except.ok ts, client', evs2) := by
  cases hN : NewStdioClient cfg.command cfg.args cfg.env pw with
  | mk res evs =>
    cases res with
    | error e => exact absurd h (by simp [providerListing, hN])
    | ok client =>
      cases hL : client.ListTools ctx with
      | mk res2 pair =>
        obtain ⟨client', evs2⟩ := pair
        cases res2 with
        | error e => exact absurd h (by simp [providerListing, hN, hL])
        | ok ts' =>
          have hts : ts' = ts := by
            simpa [providerListing, hN, hL] using h
          subst hts
          exact ⟨client, evs, client', evs2, rfl, hL⟩

lemma stepClients_ne (w : String → ProviderWorld) (ctx : Ctx)
    (e : String × MCPServer) (cs : List (String × StdioClient)) (k : String)
    (h : e.1 ≠ k) :
    mapFind (stepClients w ctx cs e) k = mapFind cs k := by
  cases hN : NewStdioClient e.2.command e.2.args e.2.env (w e.1) with
  | mk res evs =>
    cases res with
    | error err => simp [stepClients, hN]
    | ok client =>
      cases hL : client.ListTools ctx with
      | mk res2 pair =>
        obtain ⟨client', evs2⟩ := pair
        cases res2 with
        | error err2 =>
          simp only [stepClients, hN, hL]
          rw [mapFind_remove_ne _ _ _ h, mapFind_insert_ne _ _ _ _ h]
        | ok ts =>
          simp only [stepClients, hN, hL]
          rw [mapFind_insert_ne _ _ _ _ h, mapFind_insert_ne _ _ _ _ h]

lemma buildClients_ne (w : String → ProviderWorld) (ctx : Ctx) :
    ∀ (l : List (String × MCPServer)) (cs : List (String × StdioClient))
      (k : String), k ∉ l.map Prod.fst →
      mapFind (buildClients w ctx l cs) k = mapFind cs k := by
  intro l
  induction l with
  | nil => intro cs k _; rfl
  | cons e l ih =>
    intro cs k hk
    simp only [List.map_cons, List.mem_cons, not_or] at hk
    rw [buildClients_cons, ih _ k hk.2,
      stepClients_ne w ctx e cs k (fun he => hk.1 he.symm)]

lemma buildClients_present (w : String → ProviderWorld) (ctx : Ctx) :
    ∀ (l : List (String × MCPServer)) (cs : List (String × StdioClient))
      (s : String) (cfg : MCPServer) (ts : List Tool),
      (l.map Prod.fst).Nodup → (s, cfg) ∈ l →
      providerListing cfg (w s) ctx = some ts →
      (mapFind (buildClients w ctx l cs) s).isSome := by
  intro l
  induction l with
  | nil => intro cs s cfg ts _ hmem; simp at hmem
  | cons e l ih =>
    intro cs s cfg ts hnd hmem hpl
    simp only [List.map_cons, List.nodup_cons] at hnd
    rw [buildClients_cons]
    rcases List.mem_cons.mp hmem with he | hmem'
    · have hs : s = e.1 := by rw [← he]
      have hnot : s ∉ l.map Prod.fst := hs ▸ hnd.1
      rw [buildClients_ne w ctx l _ s hnot]
      obtain ⟨client, evs, client', evs2, hN, hL⟩ :=
        providerListing_some cfg (w s) ctx ts hpl
      have hecfg : e = (s, cfg) := he.symm
      subst hecfg
      simp [stepClients, hN, hL, mapFind_insert_self]
    · exact ih _ s cfg ts hnd.2 hmem' hpl

lemma key_unique {α : Type} :
    ∀ (l : List (String × α)), (l.map Prod.fst).Nodup →
      ∀ (k : String) (v₁ v₂ : α), (k, v₁) ∈ l → (k, v₂) ∈ l → v₁ = v₂ := by
  intro l
  induction l with
  | nil => intro _ k v₁ v₂ h; simp at h
  | cons e l ih =>
    intro hnd k v₁ v₂ h1 h2
    simp only [List.map_cons, List.nodup_cons] at hnd
    rcases List.mem_cons.mp h1 with he1 | h1'
    · rcases List.mem_cons.mp h2 with he2 | h2'
      · rw [← he2] at he1
        exact (Prod.ext_iff.mp he1).2
      · exfalso
        apply hnd.1
        have hek : e.1 = k := by rw [← he1]
        rw [hek]
        exact List.mem_map_of_mem Prod.fst h2'
    · rcases List.mem_cons.mp h2 with he2 | h2'
      · exfalso
        apply hnd.1
        have hek : e.1 = k := by rw [← he2]
        rw [hek]
        exact List.mem_map_of_mem Prod.fst h1'
      · exact ih hnd.2 k v₁ v₂ h1' h2'

/-- Claim C5: for every tool name absent from the catalog's owner mapping,
`route` (`UseTool`) fails with `NotFoundError` before any provider I/O: the
result is exactly the not-found error, the proxy state is unchanged, and
the event trace is empty — no process is spawned, written to, or killed. -/
theorem C5_route_absent_is_notFound (p : SmartProxy) (ctx : Ctx)
    (toolName : String) (arguments : List (String × JsonVal))
    (h : mapFind p.toolCache.serverMap toolName = none) :
    p.UseTool ctx toolName arguments =
      (Except.error (Err.notFound toolName), p, []) := by
  simp [SmartProxy.UseTool, h]

/-- Witness for C5 at a concrete empty catalog. -/
theorem C5_route_absent_is_notFound_witness :
    (New []).UseTool ⟨none⟩ "alpha" [] =
      (Except.error (Err.notFound "alpha"), New [], []) :=
  C5_route_absent_is_notFound (New []) ⟨none⟩ "alpha" [] rfl

/-- Claim C2 (refuted: code bug): the child environment is NOT the inherited
environment with overrides merged on top.  `cmd.Env` starts `nil` and the
overrides are appended to it, so with a non-empty override map the child
receives exactly the overrides and every inherited variable is dropped;
only with an empty override map (`cmd.Env` left `nil`) is the parent
environment inherited.  Evaluated at parent `PATH=/usr/bin` and override
`FOO=bar`. -/
theorem C2_env_overrides_replace_inherited :
    childEnv ["PATH=/usr/bin"] [("FOO", "bar")] = ["FOO=bar"] ∧
      "PATH=/usr/bin" ∉ childEnv ["PATH=/usr/bin"] [("FOO", "bar")] ∧
      childEnv ["PATH=/usr/bin"] [] = ["PATH=/usr/bin"] := by
  refine ⟨rfl, ?_, rfl⟩
  decide

/-- Claim C1 (refuted: code bug): no I/O wait in `CallTool` is bounded by
the caller-supplied deadline.  The context argument is ignored entirely
(the call's outcome is independent of it), the spec's `TimeoutError` is
never produced by any execution, and a failed `route` leaves the catalog
untouched, so `listAll` still lists the provider's tools.  In the running
program the un-deadlined read means `bufio.Scanner.Scan` blocks forever on
a hung provider. -/
theorem C1_no_deadline_no_timeout (c : StdioClient) (ctx₁ ctx₂ : Ctx)
    (n : String) (a : List (String × JsonVal)) (p : SmartProxy) (t : String)
    (args : List (String × JsonVal)) :
    c.CallTool ctx₁ n a = c.CallTool ctx₂ n a ∧
      (c.CallTool ctx₁ n a).1 ≠ Except.error Err.timeoutErr ∧
      ((p.UseTool ctx₁ t args).2.1).toolCache = p.toolCache := by
  refine ⟨rfl, ?_, ?_⟩
  · by_cases h1 : c.stdinOpen
    · by_cases h2 : c.stdoutOpen
      · cases hp : c.pending with
        | nil =>
          simp [StdioClient.CallTool, sendRequest, readResponse, h1, h2, hp]
        | cons line rest =>
          cases line with
          | invalid =>
            simp [StdioClient.CallTool, sendRequest, readResponse, h1, h2,
              hp]
          | json fields =>
            cases hf : mapFind fields "error" with
            | some payload =>
              simp [StdioClient.CallTool, sendRequest, readResponse, h1,
                h2, hp, hf]
            | none =>
              cases hr : mapFind fields "result" with
              | none =>
                simp [StdioClient.CallTool, sendRequest, readResponse, h1,
                  h2, hp, hf, hr]
              | some v =>
                cases v <;>
                  simp [StdioClient.CallTool, sendRequest, readResponse,
                    h1, h2, hp, hf, hr]
      · simp [StdioClient.CallTool, sendRequest, readResponse, h1, h2]
    · simp [StdioClient.CallTool, sendRequest, h1]
  · cases hm : mapFind p.toolCache.serverMap t with
    | none => simp [SmartProxy.UseTool, hm]
    | some s =>
      cases hc : mapFind p.clients s with
      | none => simp [SmartProxy.UseTool, hm, hc]
      | some client =>
        cases hct : client.CallTool ctx₁ t args with
        | mk r pair =>
          obtain ⟨client', evs⟩ := pair
          cases r <;> simp [SmartProxy.UseTool, hm, hc, hct]

/-- Claim C9: whenever the process is spawned but the handshake response
cannot be read (`output = []`: the stream ends with no line) or parsed
(first line is invalid JSON), `NewStdioClient` returns an error and its
event trace is exactly spawn, handshake write, stream close, kill — the
process is terminated before the error is returned, never orphaned. -/
theorem C9_handshake_failure_kills_process (command : String)
    (args : List String) (env : List (String × String)) (w : ProviderWorld)
    (hspawn : w.spawnOk = true) :
    (w.output = [] →
      NewStdioClient command args env w =
        (Except.error Err.readFail,
         [CEvent.spawned, CEvent.wrote "initialize", CEvent.closedStreams,
          CEvent.killed])) ∧
    (∀ rest, w.output = Line.invalid :: rest →
      NewStdioClient command args env w =
        (Except.error Err.parseFail,
         [CEvent.spawned, CEvent.wrote "initialize", CEvent.closedStreams,
          CEvent.killed])) := by
  constructor
  · intro h
    simp [NewStdioClient, handshake, sendRequest, readResponse, hspawn, h,
      StdioClient.Close]
  · intro rest h
    simp [NewStdioClient, handshake, sendRequest, readResponse, hspawn, h,
      StdioClient.Close]

/-- Witness for C9: a spawned provider whose handshake response is
unparsable is killed before the connect error is returned. -/
theorem C9_handshake_failure_kills_process_witness :
    NewStdioClient "provider-a" [] [] wFail =
      (Except.error Err.parseFail,
       [CEvent.spawned, CEvent.wrote "initialize", CEvent.closedStreams,
        CEvent.killed]) :=
  (C9_handshake_failure_kills_process "provider-a" [] [] wFail rfl).2
    [] rfl

/-- Claim C7: on an open session whose next response line is a JSON object,
`CallTool` (invoke) behaves as specified: (1) if the response carries an
`error` field the call fails with the tool-execution error wrapping the
provider's payload and the session state is unchanged except for the
consumed line — streams stay open, the process stays alive; (2) after such
a failure the session is usable for a subsequent call, which succeeds when
the following line is an error-free response with a `result` object; (3) a
response without an `error` field and with a `result` object returns that
result. -/
theorem C7_toolError_keeps_session_usable (c : StdioClient)
    (fields : List (String × JsonVal)) (rest : List Line)
    (hin : c.stdinOpen = true) (hout : c.stdoutOpen = true)
    (hp : c.pending = Line.json fields :: rest) :
    (∀ payload, mapFind fields "error" = some payload →
      ∀ ctx n a, c.CallTool ctx n a =
        (Except.error (Err.toolError payload), { c with pending := rest },
         [CEvent.wrote "tools/call"])) ∧
    (∀ payload fields₂ rest₂ r₂, mapFind fields "error" = some payload →
      rest = Line.json fields₂ :: rest₂ →
      mapFind fields₂ "error" = none →
      mapFind fields₂ "result" = some (JsonVal.obj r₂) →
      ∀ ctx n a ctx' n' a',
        ((c.CallTool ctx n a).2.1).CallTool ctx' n' a' =
          (Except.ok r₂, { c with pending := rest₂ },
           [CEvent.wrote "tools/call"])) ∧
    (∀ r, mapFind fields "error" = none →
      mapFind fields "result" = some (JsonVal.obj r) →
      ∀ ctx n a, c.CallTool ctx n a =
        (Except.ok r, { c with pending := rest },
         [CEvent.wrote "tools/call"])) := by
  refine ⟨?_, ?_, ?_⟩
  · intro payload hf ctx n a
    simp [StdioClient.CallTool, sendRequest, readResponse, hin, hout, hp, hf]
  · intro payload fields₂ rest₂ r₂ hf hrest hf₂ hr₂ ctx n a ctx' n' a'
    have h1 : c.CallTool ctx n a =
        (Except.error (Err.toolError payload), { c with pending := rest },
         [CEvent.wrote "tools/call"]) := by
      simp [StdioClient.CallTool, sendRequest, readResponse, hin, hout, hp,
        hf]
    rw [h1]
    simp [StdioClient.CallTool, sendRequest, readResponse, hin, hout,
      hrest, hf₂, hr₂]
  · intro r hf hr ctx n a
    simp [StdioClient.CallTool, sendRequest, readResponse, hin, hout, hp,
      hf, hr]

/-- Witness for C7 on a concrete session: the first call surfaces the
provider's error payload, the second call on the surviving session
succeeds. -/
theorem C7_toolError_keeps_session_usable_witness :
    cErrThenOk.CallTool ⟨none⟩ "t" [] =
      (Except.error (Err.toolError (JsonVal.str "boom")),
       { cErrThenOk with pending := [Line.json [("result", JsonVal.obj [])]] },
       [CEvent.wrote "tools/call"]) ∧
    ((cErrThenOk.CallTool ⟨none⟩ "t" []).2.1).CallTool ⟨none⟩ "u" [] =
      (Except.ok [], { cErrThenOk with pending := [] },
       [CEvent.wrote "tools/call"]) := by
  constructor
  · exact (C7_toolError_keeps_session_usable cErrThenOk
      [("error", JsonVal.str "boom")]
      [Line.json [("result", JsonVal.obj [])]] rfl rfl rfl).1
      (JsonVal.str "boom") rfl ⟨none⟩ "t" []
  · exact (C7_toolError_keeps_session_usable cErrThenOk
      [("error", JsonVal.str "boom")]
      [Line.json [("result", JsonVal.obj [])]] rfl rfl rfl).2.1
      (JsonVal.str "boom") [("result", JsonVal.obj [])] [] [] rfl rfl rfl
      rfl ⟨none⟩ "t" [] ⟨none⟩ "u" []

/-- Claim C3: after every completed rebuild — a refresh from any prior
state, or the initial discovery on a fresh proxy — the catalog's two
mappings have identical key sets: a tool name has a descriptor entry
exactly when it has an owner entry. -/
theorem C3_catalog_keysets_agree (p : SmartProxy)
    (w : String → ProviderWorld) (ctx : Ctx) (now : Nat)
    (cfg : List (String × MCPServer)) (n : String) :
    ((mapFind (p.RefreshTools w ctx now).1.toolCache.tools n).isSome ↔
      (mapFind (p.RefreshTools w ctx now).1.toolCache.serverMap n).isSome) ∧
    ((mapFind
        ((New cfg).discoverAllTools w ctx now).1.toolCache.tools n).isSome ↔
      (mapFind
        ((New cfg).discoverAllTools w ctx now).1.toolCache.serverMap
          n).isSome) := by
  constructor
  · rw [RefreshTools_eq]
    exact buildCache_keys w ctx p.config _ (fun n' => by simp) n
  · rw [discoverAllTools_eq]
    exact buildCache_keys w ctx cfg _ (fun n' => by simp [New]) n

/-- Claim C10: after every completed rebuild (refresh or initial
discovery), every descriptor in the catalog is owner-consistent: its
`serverName` field equals the owner mapping's entry for its key, and the
descriptor was supplied by that very provider's capability listing
(`FromProvider`). -/
theorem C10_owner_field_matches_serverMap (p : SmartProxy)
    (w : String → ProviderWorld) (ctx : Ctx) (now : Nat)
    (cfg : List (String × MCPServer)) (n : String) (t : Tool) :
    (mapFind (p.RefreshTools w ctx now).1.toolCache.tools n = some t →
      mapFind (p.RefreshTools w ctx now).1.toolCache.serverMap n =
        some t.serverName ∧ FromProvider w ctx p.config n t) ∧
    (mapFind ((New cfg).discoverAllTools w ctx now).1.toolCache.tools n =
        some t →
      mapFind ((New cfg).discoverAllTools w ctx now).1.toolCache.serverMap
          n = some t.serverName ∧ FromProvider w ctx cfg n t) := by
  constructor
  · intro h
    rw [RefreshTools_eq] at h ⊢
    obtain ⟨hsm, horig⟩ :=
      buildCache_owner_origin w ctx p.config _
        (fun n' t' h' => by simp at h') n t h
    rcases horig with h' | h'
    · simp at h'
    · exact ⟨hsm, h'⟩
  · intro h
    rw [discoverAllTools_eq] at h ⊢
    obtain ⟨hsm, horig⟩ :=
      buildCache_owner_origin w ctx cfg _
        (fun n' t' h' => by simp [New] at h') n t h
    rcases horig with h' | h'
    · simp [New] at h'
    · exact ⟨hsm, h'⟩

/-- Witness for C10 on a one-provider configuration: `beta`'s descriptor is
owned by `B` in both maps and originates from `B`'s listing. -/
theorem C10_owner_field_matches_serverMap_witness :
    mapFind
        ((New [("B", cfgProvB)]).discoverAllTools wOnlyBeta ⟨none⟩
          0).1.toolCache.serverMap "beta" = some toolBetaB.serverName ∧
      FromProvider wOnlyBeta ⟨none⟩ [("B", cfgProvB)] "beta" toolBetaB :=
  (C10_owner_field_matches_serverMap (New [("B", cfgProvB)]) wOnlyBeta
    ⟨none⟩ 0 [("B", cfgProvB)] "beta" toolBetaB).2 (by rfl)

/-- Claim C4: a refresh (`rebuildAll`) closes every previously open session
before any new session is opened, and installs a catalog built from empty.
Concretely: the refresh's event trace is exactly the close events of all
old sessions followed by the discovery trace (which contains every spawn),
every old session receives a kill event, and the resulting catalog equals
the one discovery computes on a fresh proxy — independent of any prior
catalog content, i.e. built empty and swapped in whole. -/
theorem C4_close_before_open_fresh_catalog (p : SmartProxy)
    (w : String → ProviderWorld) (ctx : Ctx) (now : Nat) :
    (p.RefreshTools w ctx now).2 =
      closeEvents p.clients ++ discoverTrace w ctx p.config ∧
    (p.RefreshTools w ctx now).1.toolCache.tools =
      ((New p.config).discoverAllTools w ctx now).1.toolCache.tools ∧
    (p.RefreshTools w ctx now).1.toolCache.serverMap =
      ((New p.config).discoverAllTools w ctx now).1.toolCache.serverMap ∧
    (∀ kv ∈ p.clients,
      REvent.client kv.1 CEvent.killed ∈ (p.RefreshTools w ctx now).2) := by
  refine ⟨?_, ?_, ?_, ?_⟩
  · rw [RefreshTools_eq]
  · rw [RefreshTools_tools, discoverAllTools_tools]
    have hc : (New p.config).config = p.config := rfl
    rw [hc]
    exact (buildCache_congr w ctx p.config
      { tools := [], lastSync := p.toolCache.lastSync, serverMap := [] }
      (New p.config).toolCache rfl rfl).1
  · rw [RefreshTools_serverMap, discoverAllTools_serverMap]
    have hc : (New p.config).config = p.config := rfl
    rw [hc]
    exact (buildCache_congr w ctx p.config
      { tools := [], lastSync := p.toolCache.lastSync, serverMap := [] }
      (New p.config).toolCache rfl rfl).2
  · intro kv hkv
    rw [RefreshTools_eq]
    apply List.mem_append_left
    unfold closeEvents
    refine List.mem_flatten.mpr
      ⟨tagEvs kv.1 (kv.2.Close).2, List.mem_map_of_mem _ hkv, ?_⟩
    simp [tagEvs, StdioClient.Close]

/-- Witness for C4: the one previously open session of `pWithClient` is
killed during a refresh. -/
theorem C4_close_before_open_fresh_catalog_witness :
    REvent.client "A" CEvent.killed ∈
      (pWithClient.RefreshTools wOnlyBeta ⟨none⟩ 0).2 :=
  (C4_close_before_open_fresh_catalog pWithClient wOnlyBeta ⟨none⟩
    0).2.2.2 ("A", cIdle) (List.mem_singleton.mpr rfl)

/-- Claim C8 counterexample: rebuilding twice with an unchanged provider
set and unchanged provider responses does NOT always reproduce the same
descriptor content, because Go randomizes map iteration order per `range`
loop.  Providers `A` and `B` both list a tool `alpha`; the first rebuild
observes order `[A, B]` and tags `alpha` with owner `B` (last writer),
while a second rebuild of the very same provider set (a permutation of the
first order) observing `[B, A]` tags it with owner `A`. -/
theorem C8_order_collision_counterexample :
    List.Perm [("A", cfgProvA), ("B", cfgProvB)]
      [("B", cfgProvB), ("A", cfgProvA)] ∧
    mapFind ((New [("A", cfgProvA), ("B", cfgProvB)]).RefreshTools wBoth
        ⟨none⟩ 0).1.toolCache.serverMap "alpha" = some "B" ∧
    mapFind (({ ((New [("A", cfgProvA), ("B", cfgProvB)]).RefreshTools
          wBoth ⟨none⟩ 0).1 with
        config := [("B", cfgProvB), ("A", cfgProvA)] }).RefreshTools wBoth
        ⟨none⟩ 0).1.toolCache.serverMap "alpha" = some "A" :=
  ⟨List.Perm.swap ("B", cfgProvB) ("A", cfgProvA) [], rfl, rfl⟩

/-- Claim C8, amended: with an unchanged provider set and unchanged
provider responses, rebuilding twice yields a catalog with the same key
set both times, whatever iteration order each `range` loop over the
provider map observes (the second run's order is an arbitrary permutation
`l₂` of the first); and the descriptor content — owner tags included — is
also identical whenever the second run observes the same order.  (With
differing orders and a cross-provider tool-name collision the collided
entry's content can differ, last writer wins: see the counterexample.) -/
theorem C8_rebuild_idempotent_amended (p : SmartProxy)
    (w : String → ProviderWorld) (ctx : Ctx) (now now' : Nat)
    (l₂ : List (String × MCPServer)) (hperm : p.config.Perm l₂) :
    (∀ n,
      (mapFind (({ (p.RefreshTools w ctx now).1 with config := l₂
          } : SmartProxy).RefreshTools w ctx
          now').1.toolCache.tools n).isSome ↔
      (mapFind (p.RefreshTools w ctx now).1.toolCache.tools n).isSome) ∧
    ((p.RefreshTools w ctx now).1.RefreshTools w ctx
        now').1.toolCache.tools =
      (p.RefreshTools w ctx now).1.toolCache.tools ∧
    ((p.RefreshTools w ctx now).1.RefreshTools w ctx
        now').1.toolCache.serverMap =
      (p.RefreshTools w ctx now).1.toolCache.serverMap := by
  refine ⟨?_, ?_, ?_⟩
  · intro n
    rw [RefreshTools_tools ({ (p.RefreshTools w ctx now).1 with
        config := l₂ }), RefreshTools_tools p]
    have hc : ({ (p.RefreshTools w ctx now).1 with config := l₂
        } : SmartProxy).config = l₂ := rfl
    have ht : ({ (p.RefreshTools w ctx now).1 with config := l₂
        } : SmartProxy).toolCache =
        (p.RefreshTools w ctx now).1.toolCache := rfl
    rw [hc, ht]
    have hmid : (∃ s cfg ts t0, (s, cfg) ∈ l₂ ∧
        providerListing cfg (w s) ctx = some ts ∧ t0 ∈ ts ∧
          n = t0.name) ↔
        ∃ s cfg ts t0, (s, cfg) ∈ p.config ∧
          providerListing cfg (w s) ctx = some ts ∧ t0 ∈ ts ∧
            n = t0.name := by
      constructor
      · rintro ⟨s, cfg, ts, t0, hm, rest⟩
        exact ⟨s, cfg, ts, t0, hperm.mem_iff.mpr hm, rest⟩
      · rintro ⟨s, cfg, ts, t0, hm, rest⟩
        exact ⟨s, cfg, ts, t0, hperm.mem_iff.mp hm, rest⟩
    exact Iff.trans
      (buildCache_key_iff w ctx l₂
        { tools := [],
          lastSync := (p.RefreshTools w ctx now).1.toolCache.lastSync,
          serverMap := [] } rfl n)
      (Iff.trans hmid
        (buildCache_key_iff w ctx p.config
          { tools := [], lastSync := p.toolCache.lastSync,
            serverMap := [] } rfl n).symm)
  · rw [RefreshTools_tools ((p.RefreshTools w ctx now).1),
      RefreshTools_config, RefreshTools_tools p]
    exact (buildCache_congr w ctx p.config
      { tools := [],
        lastSync := (p.RefreshTools w ctx now).1.toolCache.lastSync,
        serverMap := [] }
      { tools := [], lastSync := p.toolCache.lastSync, serverMap := [] }
      rfl rfl).1
  · rw [RefreshTools_serverMap ((p.RefreshTools w ctx now).1),
      RefreshTools_config, RefreshTools_serverMap p]
    exact (buildCache_congr w ctx p.config
      { tools := [],
        lastSync := (p.RefreshTools w ctx now).1.toolCache.lastSync,
        serverMap := [] }
      { tools := [], lastSync := p.toolCache.lastSync, serverMap := [] }
      rfl rfl).2

/-- Witness for the amended C8: on the colliding two-provider set, a
second rebuild observing the reversed order still yields the same key set
(checked at `alpha`). -/
theorem C8_rebuild_idempotent_amended_witness :
    (mapFind (({ ((New [("A", cfgProvA), ("B", cfgProvB)]).RefreshTools
          wBoth ⟨none⟩ 0).1 with
        config := [("B", cfgProvB), ("A", cfgProvA)] }).RefreshTools wBoth
        ⟨none⟩ 1).1.toolCache.tools "alpha").isSome ↔
    (mapFind ((New [("A", cfgProvA), ("B", cfgProvB)]).RefreshTools wBoth
        ⟨none⟩ 0).1.toolCache.tools "alpha").isSome :=
  (C8_rebuild_idempotent_amended (New [("A", cfgProvA), ("B", cfgProvB)])
    wBoth ⟨none⟩ 0 1 [("B", cfgProvB), ("A", cfgProvA)]
    (List.Perm.swap ("B", cfgProvB) ("A", cfgProvA) [])).1 "alpha"

/-- Claim C6: a provider that fails connect (spawn or handshake) or its
capability listing during a rebuild is excluded without aborting the
rebuild: no catalog entry is owned by it (neither in the owner map nor in
any listed descriptor's owner field), while every tool listed by any
succeeding provider is present in the catalog and routable — its owner has
an open session in the session map. -/
theorem C6_failed_provider_excluded (p : SmartProxy)
    (w : String → ProviderWorld) (ctx : Ctx) (now : Nat) (aName : String)
    (aCfg : MCPServer) (hnd : (p.config.map Prod.fst).Nodup)
    (hA : (aName, aCfg) ∈ p.config)
    (hfail : providerListing aCfg (w aName) ctx = none) :
    (∀ n, mapFind (p.RefreshTools w ctx now).1.toolCache.serverMap n ≠
      some aName) ∧
    (∀ t, t ∈ (p.RefreshTools w ctx now).1.ListTools →
      t.serverName ≠ aName) ∧
    (∀ bName bCfg ts, (bName, bCfg) ∈ p.config →
      providerListing bCfg (w bName) ctx = some ts →
      ∀ t0, t0 ∈ ts →
        (mapFind
          (p.RefreshTools w ctx now).1.toolCache.tools t0.name).isSome ∧
        ∃ s, mapFind (p.RefreshTools w ctx now).1.toolCache.serverMap
            t0.name = some s ∧
          (mapFind (p.RefreshTools w ctx now).1.clients s).isSome) := by
  have hres := RefreshTools_eq p w ctx now
  refine ⟨?_, ?_, ?_⟩
  · intro n hcon
    rw [hres] at hcon
    rcases buildCache_server_origin w ctx p.config _ n aName hcon with
      h' | h'
    · simp at h'
    · obtain ⟨cfg', ts', hmem, hpl, -⟩ := h'
      have hc : cfg' = aCfg :=
        key_unique p.config hnd aName cfg' aCfg hmem hA
      rw [hc] at hpl
      rw [hfail] at hpl
      exact Option.noConfusion hpl
  · intro t hmemT heq
    rw [hres] at hmemT
    simp only [SmartProxy.ListTools] at hmemT
    obtain ⟨n, -, hfind⟩ := mem_mapValuesAux _ [] t hmemT
    obtain ⟨-, horig⟩ :=
      buildCache_owner_origin w ctx p.config _
        (fun n' t' h' => by simp at h') n t hfind
    rcases horig with h' | h'
    · simp at h'
    · obtain ⟨s, cfg', ts', t0, hmem, hpl, -, -, ht⟩ := h'
      have hts : t.serverName = s := by rw [ht]
      rw [hts] at heq
      rw [heq] at hmem hpl
      have hc : cfg' = aCfg :=
        key_unique p.config hnd aName cfg' aCfg hmem hA
      rw [hc] at hpl
      rw [hfail] at hpl
      exact Option.noConfusion hpl
  · intro bName bCfg ts hbmem hbl t0 ht0
    constructor
    · rw [hres]
      exact buildCache_present w ctx p.config _ bName bCfg ts t0 hbmem hbl
        ht0
    · rw [hres]
      have htools :
          (mapFind (buildCache w ctx p.config
            { tools := [], lastSync := p.toolCache.lastSync,
              serverMap := [] }).tools t0.name).isSome :=
        buildCache_present w ctx p.config _ bName bCfg ts t0 hbmem hbl ht0
      have hsome :
          (mapFind (buildCache w ctx p.config
            { tools := [], lastSync := p.toolCache.lastSync,
              serverMap := [] }).serverMap t0.name).isSome :=
        (buildCache_keys w ctx p.config _ (fun n' => by simp)
          t0.name).mp htools
      obtain ⟨s, hs⟩ := Option.isSome_iff_exists.mp hsome
      refine ⟨s, hs, ?_⟩
      rcases buildCache_server_origin w ctx p.config _ t0.name s hs with
        h' | h'
      · simp at h'
      · obtain ⟨cfg', ts', hmem', hpl', -⟩ := h'
        exact buildClients_present w ctx p.config [] s cfg' ts' hnd hmem'
          hpl'

/-- Witness for C6: with provider `A` failing its handshake and provider
`B` listing `beta`, after the rebuild `beta` is present and not owned by
`A`. -/
theorem C6_failed_provider_excluded_witness :
    mapFind ((New [("A", cfgProvA), ("B", cfgProvB)]).RefreshTools wAB
        ⟨none⟩ 0).1.toolCache.serverMap "beta" ≠ some "A" ∧
    (mapFind ((New [("A", cfgProvA), ("B", cfgProvB)]).RefreshTools wAB
        ⟨none⟩ 0).1.toolCache.tools "beta").isSome := by
  have h := C6_failed_provider_excluded
    (New [("A", cfgProvA), ("B", cfgProvB)]) wAB ⟨none⟩ 0 "A" cfgProvA
    (by decide) (by decide) (by rfl)
  exact ⟨h.1 "beta",
    (h.2.2 "B" cfgProvB [toolBeta0] (by decide) (by rfl) toolBeta0
      (List.mem_singleton.mpr rfl)).1⟩
